import Mathlib

/-!
Verification of the transactional domain-event pipeline of the
fullcycle-pratica-ddd repository.

The development shallowly embeds the authoritative sources:

* `AggregateRoot` (domain/common/AggregateRoot.java): an ordered,
  append-only buffer of domain events with addEvent / getDomainEvents /
  clearEvents / hasEvents.
* `Order` (domain/order/Order.java) and `Partner`
  (domain/partner/Partner.java): the two aggregates with their business
  mutation methods pay / cancel / changeName and their factories.
* `publishEvents` (application/DomainEventPublisher.java): the dispatch
  loop over an aggregate's buffered events.
* `publishAfterCommit` (application/TransactionalEventPublisher.java)
  together with the Spring transaction-synchronization lifecycle
  (afterCommit on commit, afterCompletion(STATUS_ROLLED_BACK) on
  rollback).
* `UnitOfWorkMikroOrm` and `ApplicationService.finish` (the NestJS
  TypeScript sources quoted verbatim in ARQUITETURA-NESTJS.md and the
  comparison document): commit delegates to the entity manager's flush,
  and finish publishes domain events, then commits, then publishes
  integration events.

Event identifiers and timestamps are produced by the environment
(`UUID.randomUUID()`, `Instant.now()`); the embedding passes them as
explicit `Nat` parameters.  Traces (lists of entries) record the
temporal order of the observable actions of a pipeline run.
-/

namespace TicketSales

/-- Status of an `Order`, from domain/order/OrderStatus.java:
PENDING, PAID, CANCELLED. -/
inductive OrderStatus
  | pending
  | paid
  | cancelled
deriving DecidableEq, Repr

/-- Domain events of the ticket-sales domain, one constructor per Java
event class.  Every event carries the environment-chosen unique event id
and creation timestamp (`UUID.randomUUID()` / `Instant.now()` in the
source), followed by its kind-specific payload. -/
inductive DomainEvent
  | partnerCreated (eventId occurredOn : Nat) (partnerId name : String)
  | partnerNameChanged (eventId occurredOn : Nat) (partnerId newName : String)
  | orderCreated (eventId occurredOn : Nat)
      (orderId customerId eventSpotId : String) (amount : Int) (status : OrderStatus)
  | orderPaid (eventId occurredOn : Nat) (orderId : String) (status : OrderStatus)
  | orderCancelled (eventId occurredOn : Nat) (orderId : String) (status : OrderStatus)
deriving DecidableEq, Repr

/-- Creation timestamp of an event (`getOccurredOn()` in DomainEvent.java). -/
def DomainEvent.occurredOn : DomainEvent → Nat
  | .partnerCreated _ t _ _ => t
  | .partnerNameChanged _ t _ _ => t
  | .orderCreated _ t _ _ _ _ _ => t
  | .orderPaid _ t _ _ => t
  | .orderCancelled _ t _ _ => t

/-- Base class of every aggregate (domain/common/AggregateRoot.java): a
private ordered list of buffered domain events. -/
structure AggregateRoot where
  domainEvents : List DomainEvent
deriving DecidableEq, Repr

/-- AggregateRoot.addEvent: appends the event to the buffer. -/
def AggregateRoot.addEvent (a : AggregateRoot) (e : DomainEvent) : AggregateRoot :=
  { a with domainEvents := a.domainEvents ++ [e] }

/-- AggregateRoot.getDomainEvents: read-only view of the buffer, in
insertion order. -/
def AggregateRoot.getDomainEvents (a : AggregateRoot) : List DomainEvent :=
  a.domainEvents

/-- AggregateRoot.clearEvents: empties the buffer. -/
def AggregateRoot.clearEvents (a : AggregateRoot) : AggregateRoot :=
  { a with domainEvents := [] }

/-- AggregateRoot.hasEvents. -/
def AggregateRoot.hasEvents (a : AggregateRoot) : Bool :=
  !a.domainEvents.isEmpty

/-- Errors signalled synchronously by business methods.  The Java code
throws IllegalStateException when a state transition is illegal; the
spec names this condition InvalidStateTransition. -/
inductive DomainError
  | invalidStateTransition (message : String)
deriving DecidableEq, Repr

/-- The Order aggregate (domain/order/Order.java).  The inherited event
buffer of AggregateRoot is flattened into the structure. -/
structure Order where
  id : String
  customerId : String
  eventSpotId : String
  amount : Int
  status : OrderStatus
  domainEvents : List DomainEvent
deriving DecidableEq, Repr

/-- Order.create: builds a PENDING order and records one OrderCreated
event.  The fresh order id, event id and timestamp are environment
inputs. -/
def Order.create (customerId eventSpotId : String) (amount : Int)
    (oid : String) (eid ts : Nat) : Order :=
  let o : Order :=
    { id := oid, customerId := customerId, eventSpotId := eventSpotId
      amount := amount, status := OrderStatus.pending, domainEvents := [] }
  { o with domainEvents :=
      o.domainEvents ++ [.orderCreated eid ts oid customerId eventSpotId amount OrderStatus.pending] }

/-- Order.pay: throws unless the status is PENDING; otherwise sets the
status to PAID and records one OrderPaid event.  The pair returns the
aggregate as observable after the call together with the signalled
error, if any: the Java method checks the precondition before any
assignment, so on failure the object is untouched. -/
def Order.pay (o : Order) (eid ts : Nat) : Order × Option DomainError :=
  if o.status ≠ OrderStatus.pending then
    (o, some (.invalidStateTransition "Order can only be paid when status is PENDING"))
  else
    let o' := { o with status := OrderStatus.paid }
    ({ o' with domainEvents := o'.domainEvents ++ [.orderPaid eid ts o'.id o'.status] }, none)

/-- Order.cancel: throws only when the status is PAID; otherwise sets
the status to CANCELLED and records one OrderCancelled event.  Note the
source guards only against PAID, so a CANCELLED order may be cancelled
again. -/
def Order.cancel (o : Order) (eid ts : Nat) : Order × Option DomainError :=
  if o.status = OrderStatus.paid then
    (o, some (.invalidStateTransition "Cannot cancel a paid order"))
  else
    let o' := { o with status := OrderStatus.cancelled }
    ({ o' with domainEvents := o'.domainEvents ++ [.orderCancelled eid ts o'.id o'.status] }, none)

/-- The Partner aggregate (domain/partner/Partner.java). -/
structure Partner where
  id : String
  name : String
  domainEvents : List DomainEvent
deriving DecidableEq, Repr

/-- Partner.create: builds a partner and records one PartnerCreated
event. -/
def Partner.create (name : String) (pid : String) (eid ts : Nat) : Partner :=
  let p : Partner := { id := pid, name := name, domainEvents := [] }
  { p with domainEvents := p.domainEvents ++ [.partnerCreated eid ts pid name] }

/-- Partner.changeName: sets the name and records one PartnerNameChanged
event.  The Java method checks no precondition and cannot throw; the
second component is always `none`. -/
def Partner.changeName (p : Partner) (newName : String) (eid ts : Nat) :
    Partner × Option DomainError :=
  let p' := { p with name := newName }
  ({ p' with domainEvents := p'.domainEvents ++ [.partnerNameChanged eid ts p'.id newName] },
   none)

/-- Concrete paid order used to witness failing business calls. -/
def paidOrder : Order :=
  { id := "o1", customerId := "c1", eventSpotId := "s1", amount := 100
    status := OrderStatus.paid
    domainEvents := [.orderPaid 5 5 "o1" OrderStatus.paid] }

/-- Concrete cancelled order used to test terminality of CANCELLED. -/
def cancelledOrder : Order :=
  { id := "o1", customerId := "c1", eventSpotId := "s1", amount := 100
    status := OrderStatus.cancelled
    domainEvents := [.orderCancelled 5 5 "o1" OrderStatus.cancelled] }

/-- C3: a business mutation of an aggregate that signals
InvalidStateTransition leaves the aggregate exactly as it was: for both
Order.pay and Order.cancel (the only business methods that can fail),
whenever an error is signalled the returned aggregate — state and
pending-event buffer alike — equals the aggregate before the call. -/
theorem failing_mutation_leaves_order_unchanged (o : Order) (eid ts : Nat) :
    ((o.pay eid ts).2.isSome → (o.pay eid ts).1 = o)
    ∧ ((o.cancel eid ts).2.isSome → (o.cancel eid ts).1 = o) := by
  constructor
  · intro _
    by_cases h : o.status = OrderStatus.pending
    · simp [Order.pay, h] at *
    · simp [Order.pay, h]
  · intro _
    by_cases h : o.status = OrderStatus.paid
    · simp [Order.cancel, h]
    · simp [Order.cancel, h] at *

/-- Witness for C3: on a concrete PAID order both pay and cancel signal
an error, and the theorem yields that the order is unchanged. -/
theorem failing_mutation_leaves_order_unchanged_witness :
    (paidOrder.pay 9 9).2.isSome = true ∧ (paidOrder.pay 9 9).1 = paidOrder
    ∧ (paidOrder.cancel 9 9).2.isSome = true ∧ (paidOrder.cancel 9 9).1 = paidOrder :=
  ⟨by decide, (failing_mutation_leaves_order_unchanged paidOrder 9 9).1 (by decide),
   by decide, (failing_mutation_leaves_order_unchanged paidOrder 9 9).2 (by decide)⟩

/-- C4 counterexample: the claim asserts that every transition attempted
from a terminal state (PAID or CANCELLED) fails, but Order.cancel guards
only against PAID: cancelling an already CANCELLED order succeeds — no
error is signalled and a second OrderCancelled event is recorded. -/
theorem cancel_on_cancelled_order_succeeds :
    (cancelledOrder.cancel 7 7).2 = none
    ∧ (cancelledOrder.cancel 7 7).1.status = OrderStatus.cancelled
    ∧ (cancelledOrder.cancel 7 7).1.domainEvents
        = cancelledOrder.domainEvents ++ [.orderCancelled 7 7 "o1" OrderStatus.cancelled] := by
  refine ⟨rfl, rfl, rfl⟩

/-- C4 (amended): the Order state machine as implemented.  pay succeeds
exactly on PENDING, moving to PAID and recording exactly one OrderPaid
event; pay on any other status signals InvalidStateTransition.  cancel
fails exactly on PAID; on any other status (PENDING, but also the
already terminal CANCELLED) it succeeds, moving to CANCELLED and
recording exactly one OrderCancelled event.  Consequently PAID is
terminal, and paying twice in sequence leaves the buffer of the first
pay untouched. -/
theorem order_state_machine (o : Order) (eid ts eid' ts' : Nat) :
    (o.status = OrderStatus.pending →
      o.pay eid ts =
        ({ o with status := OrderStatus.paid
                  domainEvents := o.domainEvents ++ [.orderPaid eid ts o.id OrderStatus.paid] },
         none))
    ∧ (o.status ≠ OrderStatus.pending →
      o.pay eid ts =
        (o, some (.invalidStateTransition "Order can only be paid when status is PENDING")))
    ∧ (o.status ≠ OrderStatus.paid →
      o.cancel eid ts =
        ({ o with status := OrderStatus.cancelled
                  domainEvents := o.domainEvents ++ [.orderCancelled eid ts o.id OrderStatus.cancelled] },
         none))
    ∧ (o.status = OrderStatus.paid →
      o.cancel eid ts =
        (o, some (.invalidStateTransition "Cannot cancel a paid order")))
    ∧ (o.status = OrderStatus.pending →
      ((o.pay eid ts).1.pay eid' ts').2.isSome = true
      ∧ ((o.pay eid ts).1.pay eid' ts').1 = (o.pay eid ts).1
      ∧ ((o.pay eid ts).1.cancel eid' ts').2.isSome = true) := by
  refine ⟨?_, ?_, ?_, ?_, ?_⟩
  · intro h; simp [Order.pay, h]
  · intro h; simp [Order.pay, h]
  · intro h; simp [Order.cancel, h]
  · intro h; simp [Order.cancel, h]
  · intro h; simp [Order.pay, Order.cancel, h]

/-- Witness for C4 (amended): instantiates every branch of the state
machine theorem on concrete orders. -/
theorem order_state_machine_witness :
    (Order.create "c1" "s1" 100 "o1" 1 1).status = OrderStatus.pending
    ∧ (Order.create "c1" "s1" 100 "o1" 1 1).pay 2 2 =
        ({ Order.create "c1" "s1" 100 "o1" 1 1 with
            status := OrderStatus.paid
            domainEvents := (Order.create "c1" "s1" 100 "o1" 1 1).domainEvents
              ++ [.orderPaid 2 2 "o1" OrderStatus.paid] }, none)
    ∧ paidOrder.pay 2 2 =
        (paidOrder, some (.invalidStateTransition "Order can only be paid when status is PENDING"))
    ∧ cancelledOrder.cancel 2 2 =
        ({ cancelledOrder with
            status := OrderStatus.cancelled
            domainEvents := cancelledOrder.domainEvents
              ++ [.orderCancelled 2 2 "o1" OrderStatus.cancelled] }, none)
    ∧ paidOrder.cancel 2 2 =
        (paidOrder, some (.invalidStateTransition "Cannot cancel a paid order"))
    ∧ (((Order.create "c1" "s1" 100 "o1" 1 1).pay 2 2).1.pay 3 3).2.isSome = true :=
  ⟨by decide,
   (order_state_machine (Order.create "c1" "s1" 100 "o1" 1 1) 2 2 3 3).1 (by decide),
   (order_state_machine paidOrder 2 2 3 3).2.1 (by decide),
   (order_state_machine cancelledOrder 2 2 3 3).2.2.1 (by decide),
   (order_state_machine paidOrder 2 2 3 3).2.2.2.1 (by decide),
   ((order_state_machine (Order.create "c1" "s1" 100 "o1" 1 1) 2 2 3 3).2.2.2.2 (by decide)).1⟩

/-- C10: Partner.changeName never fails — for every new name, including
the empty string, it signals no error, sets the name, appends exactly
one PartnerNameChanged event carrying the partner id and the new name,
and grows the buffer by exactly one. -/
theorem changeName_total (p : Partner) (newName : String) (eid ts : Nat) :
    (p.changeName newName eid ts).2 = none
    ∧ (p.changeName newName eid ts).1.name = newName
    ∧ (p.changeName newName eid ts).1.id = p.id
    ∧ (p.changeName newName eid ts).1.domainEvents
        = p.domainEvents ++ [.partnerNameChanged eid ts p.id newName]
    ∧ (p.changeName newName eid ts).1.domainEvents.length
        = p.domainEvents.length + 1 := by
  refine ⟨rfl, rfl, rfl, rfl, by simp [Partner.changeName]⟩

/-- Failure signalled by the event-publication collaborator
(ApplicationEventPublisher.publishEvent): a synchronously invoked
subscriber that throws surfaces as an exception from the publish call. -/
abbrev HandlerError := String

/-- The for-loop of DomainEventPublisher.publishEvents: each buffered
event is handed, in order, to the publication collaborator.  Returns the
events actually handed over and the first error, if any: an exception
from the collaborator aborts the loop at that event. -/
def publishLoop (publish : DomainEvent → Option HandlerError) :
    List DomainEvent → List DomainEvent × Option HandlerError
  | [] => ([], none)
  | e :: rest =>
    match publish e with
    | some err => ([e], some err)
    | none =>
      let r := publishLoop publish rest
      (e :: r.1, r.2)

/-- DomainEventPublisher.publishEvents: iterates getDomainEvents handing
each event to the collaborator, then calls clearEvents — the clear is
reached only when the whole loop completed; an exception propagates to
the caller with the buffer left untouched.  The result is the aggregate
after the call, the events handed to the collaborator in order, and the
propagated error, if any. -/
def publishEvents (publish : DomainEvent → Option HandlerError)
    (root : AggregateRoot) :
    AggregateRoot × List DomainEvent × Option HandlerError :=
  let r := publishLoop publish root.getDomainEvents
  match r.2 with
  | some err => (root, r.1, some err)
  | none => (root.clearEvents, r.1, none)

/-- Publication collaborator of a run in which no subscriber throws. -/
def noFailure : DomainEvent → Option HandlerError :=
  fun _ => none

theorem publishLoop_eq_of_none (publish : DomainEvent → Option HandlerError) :
    ∀ l : List DomainEvent, (publishLoop publish l).2 = none →
      (publishLoop publish l).1 = l := by
  intro l
  induction l with
  | nil => intro _; rfl
  | cons e rest ih =>
    intro h
    cases hp : publish e with
    | some err => simp [publishLoop, hp] at h
    | none =>
      simp only [publishLoop, hp] at h ⊢
      exact congrArg (e :: ·) (ih h)

theorem publishLoop_noFailure : ∀ l : List DomainEvent,
    publishLoop noFailure l = (l, none) := by
  intro l
  induction l with
  | nil => rfl
  | cons e rest ih => simp [publishLoop, noFailure, ih]

/-- Concrete data refuting handler isolation: two events, and a
collaborator that fails on the first one. -/
def isoEvent1 : DomainEvent := .partnerCreated 1 1 "p1" "A"

def isoEvent2 : DomainEvent := .partnerCreated 2 2 "p2" "B"

def isoRoot : AggregateRoot := { domainEvents := [isoEvent1, isoEvent2] }

/-- Collaborator whose handling of the first event always fails. -/
def failOnFirst : DomainEvent → Option HandlerError :=
  fun e => if e = isoEvent1 then some "boom" else none

/-- C5 counterexample: the repository's dispatch loop does not isolate
failures.  With two buffered events and a collaborator that fails on the
first, the second event is never handed to any subscriber, the buffer is
not cleared, and the failure propagates to the caller of publishEvents —
contradicting the claim that a failure neither prevents subsequent
invocations nor reaches the caller. -/
theorem dispatch_failure_aborts_batch :
    (publishEvents failOnFirst isoRoot).2.2 = some "boom"
    ∧ (publishEvents failOnFirst isoRoot).2.1 = [isoEvent1]
    ∧ isoEvent2 ∉ (publishEvents failOnFirst isoRoot).2.1
    ∧ (publishEvents failOnFirst isoRoot).1 = isoRoot := by
  refine ⟨by decide, by decide, by decide, by decide⟩

/-- C5 (amended): DomainEventPublisher.publishEvents provides no
failure isolation.  When every publication succeeds, all buffered events
are handed over in recording order and the buffer is cleared; when the
collaborator signals a failure, the failure propagates to the caller and
the aggregate — buffer included — is left untouched, the remaining
events of the batch unpublished. -/
theorem publishEvents_no_isolation (publish : DomainEvent → Option HandlerError)
    (root : AggregateRoot) :
    ((publishEvents publish root).2.2 = none →
      (publishEvents publish root).2.1 = root.domainEvents
      ∧ (publishEvents publish root).1.domainEvents = [])
    ∧ ((publishEvents publish root).2.2.isSome →
      (publishEvents publish root).1 = root) := by
  constructor
  · intro h
    rcases hp : (publishLoop publish root.getDomainEvents).2 with _ | err
    · constructor
      · simp only [publishEvents, hp]
        exact publishLoop_eq_of_none publish root.getDomainEvents hp
      · simp [publishEvents, hp, AggregateRoot.clearEvents]
    · simp [publishEvents, hp] at h
  · intro h
    rcases hp : (publishLoop publish root.getDomainEvents).2 with _ | err
    · simp [publishEvents, hp] at h
    · simp [publishEvents, hp]

/-- Witness for C5 (amended): a failure-free run on the concrete
two-event aggregate publishes both events and clears the buffer; the
failing run leaves the aggregate untouched. -/
theorem publishEvents_no_isolation_witness :
    (publishEvents noFailure isoRoot).2.2 = none
    ∧ ((publishEvents noFailure isoRoot).2.1 = isoRoot.domainEvents
        ∧ (publishEvents noFailure isoRoot).1.domainEvents = [])
    ∧ (publishEvents failOnFirst isoRoot).2.2.isSome = true
    ∧ (publishEvents failOnFirst isoRoot).1 = isoRoot :=
  ⟨by decide, (publishEvents_no_isolation noFailure isoRoot).1 (by decide),
   by decide, (publishEvents_no_isolation failOnFirst isoRoot).2 (by decide)⟩

/-- Observable actions of the Spring transaction lifecycle, in temporal
order: the persistence commit returning, the rollback completing, and a
domain event being delivered to the subscribers. -/
inductive TraceEntry
  | commitReturned
  | rolledBack
  | dispatched (e : DomainEvent)
deriving DecidableEq, Repr

/-- Tests whether a trace entry is a delivery to subscribers. -/
def TraceEntry.isDispatched : TraceEntry → Bool
  | .dispatched _ => true
  | _ => false

/-- Result of TransactionalEventPublisher.publishAfterCommit: the
aggregate after the call, the synchronizations registered by the call
(each holding its aggregate), and the events published immediately
during the call itself. -/
structure PublishOutcome where
  root : AggregateRoot
  registered : List AggregateRoot
  immediate : List DomainEvent
deriving DecidableEq, Repr

/-- TransactionalEventPublisher.publishAfterCommit: with an active
transaction synchronization it only registers a synchronization for the
aggregate; with no active synchronization it logs a warning and calls
DomainEventPublisher.publishEvents immediately.  The call itself never
fails. -/
def publishAfterCommit (syncActive : Bool) (root : AggregateRoot) : PublishOutcome :=
  if syncActive then
    { root := root, registered := [root], immediate := [] }
  else
    let r := publishEvents noFailure root
    { root := r.1, registered := [], immediate := r.2.1 }

/-- Commit path of the registered synchronizations: after the commit has
returned, each synchronization's afterCommit runs in registration order
and calls DomainEventPublisher.publishEvents on its aggregate.  Returns
the aggregates after the callbacks and the dispatch part of the trace. -/
def commitSyncs : List AggregateRoot → List AggregateRoot × List TraceEntry
  | [] => ([], [])
  | r :: rest =>
    let p := publishEvents noFailure r
    let q := commitSyncs rest
    (p.1 :: q.1, p.2.1.map TraceEntry.dispatched ++ q.2)

/-- Successful commit of a transaction carrying the registered
synchronizations: the persistence commit returns, then the afterCommit
callbacks run. -/
def commitTransaction (syncs : List AggregateRoot) :
    List AggregateRoot × List TraceEntry :=
  let q := commitSyncs syncs
  (q.1, TraceEntry.commitReturned :: q.2)

/-- Rollback path: each synchronization's afterCompletion runs with
STATUS_ROLLED_BACK and calls clearEvents on its aggregate; no event is
delivered. -/
def rollbackSyncs : List AggregateRoot → List AggregateRoot × List TraceEntry
  | [] => ([], [])
  | r :: rest =>
    let q := rollbackSyncs rest
    (r.clearEvents :: q.1, q.2)

/-- Rollback of a transaction carrying the registered synchronizations. -/
def rollbackTransaction (syncs : List AggregateRoot) :
    List AggregateRoot × List TraceEntry :=
  let q := rollbackSyncs syncs
  (q.1, TraceEntry.rolledBack :: q.2)

theorem rollbackSyncs_eq (syncs : List AggregateRoot) :
    rollbackSyncs syncs = (syncs.map AggregateRoot.clearEvents, []) := by
  induction syncs with
  | nil => rfl
  | cons r rest ih => simp [rollbackSyncs, ih]

/-- C2: rolling back a transaction dispatches none of the buffered
events of the registered aggregates — the trace of the rollback contains
no delivery at all — and afterwards the pending-event buffer of every
registered aggregate is empty. -/
theorem rollback_discards_all_events (syncs : List AggregateRoot) :
    ((rollbackTransaction syncs).2.all fun en => !en.isDispatched) = true
    ∧ ((rollbackTransaction syncs).1.all fun r => r.domainEvents.isEmpty) = true := by
  constructor
  · simp [rollbackTransaction, rollbackSyncs_eq, TraceEntry.isDispatched]
  · simp only [rollbackTransaction, rollbackSyncs_eq]
    simp [AggregateRoot.clearEvents, List.all_eq_true]

/-- C9: calling publishAfterCommit with no active transaction
synchronization does not fail — the aggregate's buffered events are all
published immediately, in order, during the call itself (hence with no
preceding persistence commit), no synchronization is registered, and the
buffer is cleared. -/
theorem publishAfterCommit_without_transaction (root : AggregateRoot) :
    (publishAfterCommit false root).immediate = root.domainEvents
    ∧ (publishAfterCommit false root).registered = []
    ∧ (publishAfterCommit false root).root.domainEvents = [] := by
  refine ⟨?_, rfl, ?_⟩
  · simp [publishAfterCommit, publishEvents, publishLoop_noFailure,
      AggregateRoot.getDomainEvents]
  · simp [publishAfterCommit, publishEvents, publishLoop_noFailure,
      AggregateRoot.clearEvents]

/-- State of the MikroORM entity manager as seen by the Unit of Work:
the persist and remove stacks of its internal unit of work, and the
number of completed flushes.  Database-level failures are out of scope;
flush always succeeds here. -/
structure EntityManagerState where
  persistStack : List AggregateRoot
  removeStack : List AggregateRoot
  flushes : Nat
deriving DecidableEq, Repr

/-- The transaction-lifecycle error named by the spec.  No code path of
UnitOfWorkMikroOrm ever produces it. -/
inductive UowError
  | transactionNotActive
deriving DecidableEq, Repr

/-- EntityManager.flush of MikroORM: writes the pending changes; it
performs no transaction-state bookkeeping and signals no lifecycle
error. -/
def EntityManagerState.flush (em : EntityManagerState) :
    EntityManagerState × Option UowError :=
  ({ em with flushes := em.flushes + 1 }, none)

namespace UnitOfWorkMikroOrm

/-- UnitOfWorkMikroOrm.commit: delegates to the entity manager's flush.
There is no transaction-state flag and no check that the instance has
not already committed or rolled back. -/
def commit (em : EntityManagerState) : EntityManagerState × Option UowError :=
  em.flush

/-- UnitOfWorkMikroOrm.getAggregateRoots: the aggregates tracked by the
ORM, the persist stack followed by the remove stack. -/
def getAggregateRoots (em : EntityManagerState) : List AggregateRoot :=
  em.persistStack ++ em.removeStack

end UnitOfWorkMikroOrm

/-- Harness iterating commit: invokes commit n times in sequence,
stopping early if a call ever signalled an error. -/
def commitIter : Nat → EntityManagerState → EntityManagerState × Option UowError
  | 0, em => (em, none)
  | n + 1, em =>
    let c := UnitOfWorkMikroOrm.commit em
    match c.2 with
    | some err => (c.1, some err)
    | none => commitIter n c.1

/-- Observable actions of a run of ApplicationService.finish, in
temporal order: a domain event handed to the domain subscribers, the
Unit of Work commit, and an event handed to the integration
subscribers. -/
inductive FinishEntry
  | domainDispatch (e : DomainEvent)
  | commit
  | integrationDispatch (e : DomainEvent)
deriving DecidableEq, Repr

/-- Tests whether an entry is the commit. -/
def FinishEntry.isCommit : FinishEntry → Bool
  | .commit => true
  | _ => false

/-- Tests whether an entry is a domain-subscriber delivery. -/
def FinishEntry.isDomainDispatch : FinishEntry → Bool
  | .domainDispatch _ => true
  | _ => false

/-- Tests whether an entry is an integration hand-off. -/
def FinishEntry.isIntegrationDispatch : FinishEntry → Bool
  | .integrationDispatch _ => true
  | _ => false

/-- Extracts the event of a domain-subscriber delivery. -/
def FinishEntry.domainEventOf : FinishEntry → Option DomainEvent
  | .domainDispatch e => some e
  | _ => none

namespace DomainEventManager

/-- DomainEventManager.publish: emits every buffered event of the
aggregate, in recording order, to the domain subscribers.  The buffer is
not cleared by publishing. -/
def publish (root : AggregateRoot) : List FinishEntry :=
  root.domainEvents.map FinishEntry.domainDispatch

/-- DomainEventManager.publishForIntegrationEvent: emits every buffered
event of the aggregate, in recording order, to the integration
subscribers. -/
def publishForIntegrationEvent (root : AggregateRoot) : List FinishEntry :=
  root.domainEvents.map FinishEntry.integrationDispatch

end DomainEventManager

/-- First loop of ApplicationService.finish: publishes the domain
events of every tracked aggregate, in tracking order. -/
def domainPhase : List AggregateRoot → List FinishEntry
  | [] => []
  | r :: rest => DomainEventManager.publish r ++ domainPhase rest

/-- Third loop of ApplicationService.finish: publishes the integration
events of every tracked aggregate, in tracking order. -/
def integrationPhase : List AggregateRoot → List FinishEntry
  | [] => []
  | r :: rest => DomainEventManager.publishForIntegrationEvent r ++ integrationPhase rest

namespace ApplicationService

/-- ApplicationService.finish of the NestJS pipeline: publish the domain
events of every tracked aggregate, then uow.commit(), then publish the
integration events.  The second component is the temporal sequence of
the observable actions of the run. -/
def finish (em : EntityManagerState) : EntityManagerState × List FinishEntry :=
  let roots := UnitOfWorkMikroOrm.getAggregateRoots em
  let c := UnitOfWorkMikroOrm.commit em
  (c.1, domainPhase roots ++ FinishEntry.commit :: integrationPhase roots)

end ApplicationService

/-- Domain events delivered to domain subscribers, in trace order. -/
def dispatchedDomainEvents (tr : List FinishEntry) : List DomainEvent :=
  tr.filterMap FinishEntry.domainEventOf

/-- Buffered events of the given aggregates: aggregates in tracking
order, and within an aggregate in recording order. -/
def bufferedEventsInOrder : List AggregateRoot → List DomainEvent
  | [] => []
  | r :: rest => r.domainEvents ++ bufferedEventsInOrder rest

/-- Formalisation of the commit-then-dispatch claim on a finish trace:
every entry preceding the first commit entry is not a domain-subscriber
delivery. -/
def commitPrecedesDomainDispatch (tr : List FinishEntry) : Bool :=
  (tr.takeWhile fun en => !en.isCommit).all fun en => !en.isDomainDispatch

theorem mem_domainPhase : ∀ {roots : List AggregateRoot} {en : FinishEntry},
    en ∈ domainPhase roots → en.isDomainDispatch = true := by
  intro roots
  induction roots with
  | nil => intro en h; simp [domainPhase] at h
  | cons r rest ih =>
    intro en h
    simp only [domainPhase, DomainEventManager.publish, List.mem_append,
      List.mem_map] at h
    rcases h with ⟨e, _, rfl⟩ | h
    · rfl
    · exact ih h

theorem mem_integrationPhase : ∀ {roots : List AggregateRoot} {en : FinishEntry},
    en ∈ integrationPhase roots → en.isIntegrationDispatch = true := by
  intro roots
  induction roots with
  | nil => intro en h; simp [integrationPhase] at h
  | cons r rest ih =>
    intro en h
    simp only [integrationPhase, DomainEventManager.publishForIntegrationEvent,
      List.mem_append, List.mem_map] at h
    rcases h with ⟨e, _, rfl⟩ | h
    · rfl
    · exact ih h

theorem finish_trace_eq (em : EntityManagerState) :
    (ApplicationService.finish em).2 =
      domainPhase (UnitOfWorkMikroOrm.getAggregateRoots em)
        ++ FinishEntry.commit
          :: integrationPhase (UnitOfWorkMikroOrm.getAggregateRoots em) := rfl

theorem idx_domainDispatch_lt (em : EntityManagerState) (i : Nat) (e : DomainEvent)
    (h : (ApplicationService.finish em).2[i]? = some (.domainDispatch e)) :
    i < (domainPhase (UnitOfWorkMikroOrm.getAggregateRoots em)).length := by
  by_contra hge
  push_neg at hge
  rw [finish_trace_eq em, List.getElem?_append_right hge] at h
  cases hk : i - (domainPhase (UnitOfWorkMikroOrm.getAggregateRoots em)).length with
  | zero =>
    rw [hk] at h
    simp at h
  | succ k =>
    rw [hk] at h
    simp only [List.getElem?_cons_succ] at h
    have hm := mem_integrationPhase (List.getElem?_mem h)
    simp [FinishEntry.isIntegrationDispatch] at hm

theorem idx_commit_ge (em : EntityManagerState) (j : Nat)
    (h : (ApplicationService.finish em).2[j]? = some .commit) :
    (domainPhase (UnitOfWorkMikroOrm.getAggregateRoots em)).length ≤ j := by
  by_contra hlt
  push_neg at hlt
  rw [finish_trace_eq em, List.getElem?_append_left hlt] at h
  have hm := mem_domainPhase (List.getElem?_mem h)
  simp [FinishEntry.isDomainDispatch] at hm

theorem idx_integration_gt (em : EntityManagerState) (j : Nat) (f : DomainEvent)
    (h : (ApplicationService.finish em).2[j]? = some (.integrationDispatch f)) :
    (domainPhase (UnitOfWorkMikroOrm.getAggregateRoots em)).length < j := by
  have hge : (domainPhase (UnitOfWorkMikroOrm.getAggregateRoots em)).length ≤ j := by
    by_contra hlt
    push_neg at hlt
    rw [finish_trace_eq em, List.getElem?_append_left hlt] at h
    have hm := mem_domainPhase (List.getElem?_mem h)
    simp [FinishEntry.isDomainDispatch] at hm
  rcases Nat.lt_or_ge (domainPhase (UnitOfWorkMikroOrm.getAggregateRoots em)).length j with hlt | hge2
  · exact hlt
  · exfalso
    have hj : (domainPhase (UnitOfWorkMikroOrm.getAggregateRoots em)).length = j :=
      Nat.le_antisymm hge hge2
    rw [finish_trace_eq em, ← hj, List.getElem?_append_right (Nat.le_refl _)] at h
    simp at h

/-- Concrete aggregate and entity-manager state for the ordering
counterexample: one tracked aggregate with one buffered event. -/
def c1Root : AggregateRoot := { domainEvents := [.partnerCreated 1 1 "p1" "Acme"] }

def c1Em : EntityManagerState :=
  { persistStack := [c1Root], removeStack := [], flushes := 0 }

/-- C1 counterexample: in the NestJS pipeline, ApplicationService.finish
delivers the buffered domain events to the subscribers before the Unit
of Work commit: on a concrete transaction with one tracked aggregate and
one event, the very first observable action of the run is a
domain-subscriber delivery and the commit comes only second — refuting
the claim that persistence commit strictly precedes domain-event
dispatch in every transaction of the pipeline. -/
theorem finish_dispatches_domain_events_before_commit :
    commitPrecedesDomainDispatch (ApplicationService.finish c1Em).2 = false
    ∧ (ApplicationService.finish c1Em).2 =
        [.domainDispatch (.partnerCreated 1 1 "p1" "Acme"),
         .commit,
         .integrationDispatch (.partnerCreated 1 1 "p1" "Acme")] := by
  refine ⟨by decide, by decide⟩

/-- C1 (amended): commit-versus-dispatch ordering as implemented.  In
the Spring pipeline, with an active transaction synchronization, every
delivery happens in an afterCommit callback, strictly after the commit
has returned.  In the NestJS pipeline, ApplicationService.finish
dispatches every domain event strictly before the commit; only the
integration hand-off follows the commit. -/
theorem commit_dispatch_ordering_as_implemented :
    (∀ (syncs : List AggregateRoot) (i : Nat) (e : DomainEvent),
      (commitTransaction syncs).2[i]? = some (.dispatched e) →
      (commitTransaction syncs).2[0]? = some .commitReturned ∧ 0 < i)
    ∧ (∀ (em : EntityManagerState) (i j : Nat) (e : DomainEvent),
      (ApplicationService.finish em).2[i]? = some (.domainDispatch e) →
      (ApplicationService.finish em).2[j]? = some .commit → i < j) := by
  constructor
  · intro syncs i e h
    constructor
    · simp [commitTransaction, List.getElem?_cons_zero]
    · cases i with
      | zero => simp [commitTransaction] at h
      | succ k => exact Nat.succ_pos k
  · intro em i j e hi hj
    exact Nat.lt_of_lt_of_le (idx_domainDispatch_lt em i e hi) (idx_commit_ge em j hj)

/-- Witness for C1 (amended): on a Spring transaction with one
registered aggregate the delivery sits at index 1, after the commit
return at index 0; on the concrete NestJS run the domain delivery at
index 0 precedes the commit at index 1. -/
theorem commit_dispatch_ordering_as_implemented_witness :
    (commitTransaction [c1Root]).2[1]? =
      some (.dispatched (.partnerCreated 1 1 "p1" "Acme"))
    ∧ ((commitTransaction [c1Root]).2[0]? = some .commitReturned ∧ 0 < 1)
    ∧ (ApplicationService.finish c1Em).2[0]? =
        some (.domainDispatch (.partnerCreated 1 1 "p1" "Acme"))
    ∧ (ApplicationService.finish c1Em).2[1]? = some .commit
    ∧ 0 < 1 :=
  ⟨by decide,
   commit_dispatch_ordering_as_implemented.1 [c1Root] 1
     (.partnerCreated 1 1 "p1" "Acme") (by decide),
   by decide, by decide,
   commit_dispatch_ordering_as_implemented.2 c1Em 0 1
     (.partnerCreated 1 1 "p1" "Acme") (by decide) (by decide)⟩

theorem dispatchedDomainEvents_map_domain (l : List DomainEvent) :
    dispatchedDomainEvents (l.map FinishEntry.domainDispatch) = l := by
  induction l with
  | nil => rfl
  | cons e rest ih =>
    simp only [List.map_cons, dispatchedDomainEvents, List.filterMap_cons,
      FinishEntry.domainEventOf] at ih ⊢
    rw [ih]

theorem dispatchedDomainEvents_map_integration (l : List DomainEvent) :
    dispatchedDomainEvents (l.map FinishEntry.integrationDispatch) = [] := by
  induction l with
  | nil => rfl
  | cons e rest ih =>
    simp only [List.map_cons, dispatchedDomainEvents, List.filterMap_cons,
      FinishEntry.domainEventOf] at ih ⊢
    exact ih

theorem dispatchedDomainEvents_domainPhase (roots : List AggregateRoot) :
    dispatchedDomainEvents (domainPhase roots) = bufferedEventsInOrder roots := by
  induction roots with
  | nil => rfl
  | cons r rest ih =>
    simp only [domainPhase, DomainEventManager.publish, bufferedEventsInOrder,
      dispatchedDomainEvents, List.filterMap_append] at ih ⊢
    rw [ih]
    have := dispatchedDomainEvents_map_domain r.domainEvents
    simp only [dispatchedDomainEvents] at this
    rw [this]

theorem dispatchedDomainEvents_integrationPhase (roots : List AggregateRoot) :
    dispatchedDomainEvents (integrationPhase roots) = [] := by
  induction roots with
  | nil => rfl
  | cons r rest ih =>
    simp only [integrationPhase, DomainEventManager.publishForIntegrationEvent,
      dispatchedDomainEvents, List.filterMap_append] at ih ⊢
    rw [ih]
    have := dispatchedDomainEvents_map_integration r.domainEvents
    simp only [dispatchedDomainEvents] at this
    rw [this]
    rfl

/-- Tracked aggregates whose event timestamps run against tracking
order: the first-tracked aggregate holds the younger event. -/
def lateRoot : AggregateRoot := { domainEvents := [.partnerCreated 1 10 "pa" "A"] }

def earlyRoot : AggregateRoot := { domainEvents := [.partnerCreated 2 5 "pb" "B"] }

def outOfTsOrderEm : EntityManagerState :=
  { persistStack := [lateRoot, earlyRoot], removeStack := [], flushes := 0 }

/-- C6: on a successful commit through ApplicationService.finish the
domain events are delivered exactly in tracking order of the aggregates
and, within an aggregate, in recording order of its events — and on a
concrete transaction whose event timestamps run against tracking order,
delivery still follows tracking order, not timestamp order. -/
theorem dispatch_follows_registration_order :
    (∀ em : EntityManagerState,
      dispatchedDomainEvents (ApplicationService.finish em).2 =
        bufferedEventsInOrder (UnitOfWorkMikroOrm.getAggregateRoots em))
    ∧ dispatchedDomainEvents (ApplicationService.finish outOfTsOrderEm).2 =
        [.partnerCreated 1 10 "pa" "A", .partnerCreated 2 5 "pb" "B"]
    ∧ DomainEvent.occurredOn (.partnerCreated 2 5 "pb" "B")
        < DomainEvent.occurredOn (.partnerCreated 1 10 "pa" "A") := by
  refine ⟨?_, by decide, by decide⟩
  intro em
  rw [finish_trace_eq em]
  simp only [dispatchedDomainEvents, List.filterMap_append, List.filterMap_cons]
  have h1 := dispatchedDomainEvents_domainPhase (UnitOfWorkMikroOrm.getAggregateRoots em)
  have h2 := dispatchedDomainEvents_integrationPhase (UnitOfWorkMikroOrm.getAggregateRoots em)
  simp only [dispatchedDomainEvents] at h1 h2
  rw [h1]
  simp [FinishEntry.domainEventOf, h2]

/-- Concrete transaction for the domain-before-integration witness. -/
def c7Root : AggregateRoot := { domainEvents := [.orderPaid 3 3 "o1" OrderStatus.paid] }

def c7Em : EntityManagerState :=
  { persistStack := [c7Root], removeStack := [], flushes := 0 }

/-- C7: within one committed transaction of the NestJS pipeline, every
domain-subscriber delivery happens strictly before every integration
hand-off: whenever the trace of ApplicationService.finish holds a domain
delivery at index i and an integration hand-off at index j, i < j. -/
theorem domain_handlers_before_integration (em : EntityManagerState)
    (i j : Nat) (e f : DomainEvent)
    (hi : (ApplicationService.finish em).2[i]? = some (.domainDispatch e))
    (hj : (ApplicationService.finish em).2[j]? = some (.integrationDispatch f)) :
    i < j :=
  Nat.lt_trans (idx_domainDispatch_lt em i e hi) (idx_integration_gt em j f hj)

/-- Witness for C7: on a concrete one-aggregate transaction the domain
delivery sits at index 0 and the integration hand-off at index 2. -/
theorem domain_handlers_before_integration_witness :
    (ApplicationService.finish c7Em).2[0]? =
      some (.domainDispatch (.orderPaid 3 3 "o1" OrderStatus.paid))
    ∧ (ApplicationService.finish c7Em).2[2]? =
        some (.integrationDispatch (.orderPaid 3 3 "o1" OrderStatus.paid))
    ∧ 0 < 2 :=
  ⟨by decide, by decide,
   domain_handlers_before_integration c7Em 0 2
     (.orderPaid 3 3 "o1" OrderStatus.paid) (.orderPaid 3 3 "o1" OrderStatus.paid)
     (by decide) (by decide)⟩

/-- Empty entity-manager state for the double-commit counterexample. -/
def c8Em : EntityManagerState := { persistStack := [], removeStack := [], flushes := 0 }

/-- C8 counterexample: UnitOfWorkMikroOrm has no transaction-state
machine — committing a Unit of Work that has already committed does not
fail with TransactionNotActive; the second commit merely flushes again
and succeeds. -/
theorem second_commit_succeeds :
    (UnitOfWorkMikroOrm.commit (UnitOfWorkMikroOrm.commit c8Em).1).2 = none
    ∧ (UnitOfWorkMikroOrm.commit (UnitOfWorkMikroOrm.commit c8Em).1).2
        ≠ some UowError.transactionNotActive := by
  refine ⟨rfl, by decide⟩

/-- C8 (amended): UnitOfWorkMikroOrm keeps no transaction state and
defines no TransactionNotActive failure.  commit() only delegates to the
entity manager's flush: it may be invoked any number of times in
sequence, every invocation succeeds, and n invocations perform exactly n
flushes; tracked aggregates are the ORM's persist and remove stacks
rather than explicit registrations. -/
theorem uow_commit_is_stateless (em : EntityManagerState) (n : Nat) :
    (UnitOfWorkMikroOrm.commit em).2 = none
    ∧ (UnitOfWorkMikroOrm.commit em).1 = { em with flushes := em.flushes + 1 }
    ∧ (commitIter n em).2 = none
    ∧ (commitIter n em).1.flushes = em.flushes + n
    ∧ UnitOfWorkMikroOrm.getAggregateRoots em = em.persistStack ++ em.removeStack := by
  refine ⟨rfl, rfl, ?_, ?_, rfl⟩
  · induction n generalizing em with
    | zero => rfl
    | succ k ih =>
      simp only [commitIter, UnitOfWorkMikroOrm.commit, EntityManagerState.flush]
      exact ih _
  · induction n generalizing em with
    | zero => rfl
    | succ k ih =>
      simp only [commitIter, UnitOfWorkMikroOrm.commit, EntityManagerState.flush]
      rw [ih]
      show em.flushes + 1 + k = em.flushes + (k + 1)
      omega

end TicketSales
